import Mathlib

/-!
Shallow embedding of the Auto-Explainer backend (src/main.py, src/schemas.py):
the fact extractor, the template generator, and the API endpoints over an
explicit record store, together with proofs of the specification's claims.
-/

set_option maxRecDepth 4096

/-- The fixed section names, in the order `generate_content` emits them
(src/main.py, SECTIONS). -/
def SECTIONS : List String :=
  ["instagram_post", "facebook_post", "reels_script", "selling_points",
   "whatsapp_short", "qa", "sales_call_script"]

/-- Supported language codes (src/main.py, LANGS). -/
def LANGS : List String := ["en", "pl"]

/-- The structured fact record produced by `simple_extract`
(src/main.py lines 51-61): string fields plus two list fields. -/
structure Facts where
  location : String
  prices : String
  sizes : String
  payment_plan : String
  amenities : List String
  usp : List String
  handover : String
  developer : String
  project : String
deriving Repr, DecidableEq

/-- Language selector `t(en, pl)` from `generate_content` (src/main.py line 97):
Polish text when `lang == "pl"`, English otherwise. -/
def tsel (lang : String) (en pl : String) : String :=
  if lang = "pl" then pl else en

/-- The tone marker phrase chosen by `apply_tone` (src/main.py lines 100-107),
as a function of tone and language. -/
def tonePrefix (tone lang : String) : String :=
  if tone = "aggressive" then tsel lang "ACT NOW: " "DZIAŁAJ TERAZ: "
  else if tone = "simple" then tsel lang "Plain: " "Prosto: "
  else if tone = "storytelling" then tsel lang "Imagine this: " "Wyobraź sobie: "
  else tsel lang "Premium: " "Premium: "

/-- `apply_tone(text)` from `generate_content` (src/main.py lines 100-107). -/
def apply_tone (tone lang : String) (text : String) : String :=
  if tone = "aggressive" then tsel lang "ACT NOW: " "DZIAŁAJ TERAZ: " ++ text
  else if tone = "simple" then tsel lang "Plain: " "Prosto: " ++ text
  else if tone = "storytelling" then tsel lang "Imagine this: " "Wyobraź sobie: " ++ text
  else tsel lang "Premium: " "Premium: " ++ text

/-- The ten Q&A questions of `generate_content` (src/main.py lines 144-155). -/
def qa_items (lang : String) : List String :=
  [tsel lang "What is the starting price?" "Jaka jest cena startowa?",
   tsel lang "What sizes are available?" "Jakie metraże są dostępne?",
   tsel lang "What is the payment plan?" "Jaki jest plan płatności?",
   tsel lang "Where is it located?" "Gdzie znajduje się inwestycja?",
   tsel lang "When is handover?" "Kiedy odbiory?",
   tsel lang "Who is the developer?" "Kto jest deweloperem?",
   tsel lang "What amenities are included?" "Jakie udogodnienia?",
   tsel lang "Expected ROI?" "Oczekiwany zwrot?",
   tsel lang "Is financing available?" "Czy dostępne jest finansowanie?",
   tsel lang "How to reserve?" "Jak zarezerwować?"]

/-- `generate_content(extracted, tone, lang)` (src/main.py lines 83-173):
seven sections as an association list in the dict's insertion order.
`extracted.get("project") or "New Development"` falls back on the empty
string; the other `get` calls default to empty values already present in
the record. -/
def generate_content (extracted : Facts) (tone lang : String) :
    List (String × String) :=
  let name := if extracted.project = "" then "New Development" else extracted.project
  let location := extracted.location
  let prices := extracted.prices
  let sizes := extracted.sizes
  let payment := extracted.payment_plan
  let amenities := String.intercalate ", " extracted.amenities
  let usp := String.intercalate ", " extracted.usp
  let handover := extracted.handover
  let developer := extracted.developer
  let instagram := apply_tone tone lang
    (tsel lang
      (name ++ " in " ++ location ++ ". " ++ prices ++ " " ++ sizes ++ " " ++
        payment ++ " Amenities: " ++ amenities ++ ". Handover: " ++ handover ++
        ". By " ++ developer ++ ".")
      (name ++ " w " ++ location ++ ". " ++ prices ++ " " ++ sizes ++ " " ++
        payment ++ " Udogodnienia: " ++ amenities ++ ". Handover: " ++ handover ++
        ". Deweloper: " ++ developer ++ "."))
  let facebook := apply_tone tone lang
    (tsel lang
      ("Discover " ++ name ++ ". Key points: " ++ usp ++ ". Prices: " ++ prices ++
        ". Sizes: " ++ sizes ++ ". Payment: " ++ payment ++ ". Location: " ++
        location ++ ".")
      ("Poznaj " ++ name ++ ". Kluczowe atuty: " ++ usp ++ ". Ceny: " ++ prices ++
        ". Metraże: " ++ sizes ++ ". Płatność: " ++ payment ++ ". Lokalizacja: " ++
        location ++ "."))
  let reels := apply_tone tone lang
    (tsel lang
      ("Hook: Own " ++ name ++ " in " ++ location ++ ".\n- " ++ usp ++ "\n- " ++
        prices ++ "\n- " ++ sizes ++ "\n- " ++ payment ++ "\nCTA: DM for details.")
      ("Hook: " ++ name ++ " w " ++ location ++ ".\n- " ++ usp ++ "\n- " ++
        prices ++ "\n- " ++ sizes ++ "\n- " ++ payment ++
        "\nCTA: Napisz po szczegóły."))
  let selling_points := apply_tone tone lang
    (tsel lang
      ("Top 10: " ++ usp ++ ", Amenities: " ++ amenities ++ ", Handover: " ++
        handover ++ ", Developer: " ++ developer)
      ("Top 10: " ++ usp ++ ", Udogodnienia: " ++ amenities ++ ", Handover: " ++
        handover ++ ", Deweloper: " ++ developer))
  let whatsapp := apply_tone tone lang
    (tsel lang
      ("Short: " ++ name ++ " in " ++ location ++ ". " ++ prices ++ " " ++ payment)
      ("Krótko: " ++ name ++ " w " ++ location ++ ". " ++ prices ++ " " ++ payment))
  let qa := String.intercalate "\n"
    ((qa_items lang).map (fun q => "Q: " ++ q ++ "\nA: "))
  let call_script := apply_tone tone lang
    (tsel lang
      ("Intro: calling about " ++ name ++ ". Confirm interest, share " ++ prices ++
        " & " ++ payment ++ ", schedule viewing.")
      ("Intro: dzwonię w sprawie " ++ name ++ ". Potwierdź zainteresowanie, podaj " ++
        prices ++ " i " ++ payment ++ ", umów prezentację."))
  [("instagram_post", instagram),
   ("facebook_post", facebook),
   ("reels_script", reels),
   ("selling_points", selling_points),
   ("whatsapp_short", whatsapp),
   ("qa", qa),
   ("sales_call_script", call_script)]

/-- Insert-or-replace on an association list: a Python dict assignment
`d[k] = v` keeps the key's original position when it is already present. -/
def dinsert (k : String) (v : α) : List (String × α) → List (String × α)
  | [] => [(k, v)]
  | (k', v') :: rest =>
      if k' = k then (k, v) :: rest else (k', v') :: dinsert k v rest

/-- `build_outputs(extracted, tone, languages)` (src/main.py lines 176-180):
one `generate_content` call per requested language, accumulated into a dict. -/
def build_outputs (extracted : Facts) (tone : String) (languages : List String) :
    List (String × List (String × String)) :=
  languages.foldl (fun acc lang => dinsert lang (generate_content extracted tone lang) acc) []

/-- Python `str.lower`, modelled character-wise (agrees with CPython on the
ASCII inputs the code applies it to). -/
def lowerStr (s : String) : String := String.mk (s.data.map Char.toLower)

/-- Python `str.upper`, modelled character-wise. -/
def upperStr (s : String) : String := String.mk (s.data.map Char.toUpper)

/-- First index at which `needle` occurs as a contiguous sublist of `hay`
(Python `str.find`), `none` when it never occurs. -/
def findSub : List Char → List Char → Option Nat
  | needle, [] => if needle = [] then some 0 else none
  | needle, c :: rest =>
      if needle.isPrefixOf (c :: rest) then some 0
      else match findSub needle rest with
        | some i => some (i + 1)
        | none => none

/-- The per-label capture of `simple_extract` (src/main.py lines 64-68): if the
label occurs in the lower-cased text, the slice `text[start:start+160]` of the
original text up to the first line break; otherwise empty. Python `str.lower`
is modelled character-wise by `Char.toLower` (they agree on ASCII, which is
all the labels use). -/
def extract_field (text : String) (key : String) : String :=
  match findSub key.data (text.data.map Char.toLower) with
  | none => ""
  | some start =>
      String.mk (((text.data.drop start).take 160).takeWhile (fun c => c ≠ '\n'))

/-- Substring membership test, Python `key in lower`. -/
def containsSub (key : String) (chars : List Char) : Bool :=
  (findSub key.data chars).isSome

/-- `simple_extract(text)` (src/main.py lines 46-80): the heuristic extractor.
The four labeled fields use `extract_field`; the canned fields fire on keyword
containment; `usp` is always the fixed two-item list. -/
def simple_extract (text : String) : Facts :=
  let lower := text.data.map Char.toLower
  { location := extract_field text "location"
    prices :=
      if containsSub "price" lower || containsSub "from" lower then
        "From competitive entry pricing; exact figures detected when using AI mode."
      else ""
    sizes :=
      if containsSub "sqft" lower || containsSub "sqm" lower || containsSub "bed" lower then
        "Studios to 4BR; sizes auto-detected in AI mode."
      else ""
    payment_plan :=
      if containsSub "payment" lower || containsSub "installment" lower then
        "Flexible installments available."
      else ""
    amenities :=
      if containsSub "amenit" lower || containsSub "pool" lower || containsSub "gym" lower then
        ["Pool", "Gym", "Parking"]
      else []
    usp := ["Prime location", "Strong ROI potential"]
    handover := extract_field text "handover"
    developer := extract_field text "developer"
    project := extract_field text "project" }

/-- Selects one of the four labeled fields of a fact record by label name. -/
def fieldOf (d : Facts) (key : String) : String :=
  if key = "location" then d.location
  else if key = "handover" then d.handover
  else if key = "developer" then d.developer
  else if key = "project" then d.project
  else ""

/-- Last index of character `c` in `l` (Python `str.rfind`), `none` if absent. -/
def rfindIdx (c : Char) : List Char → Option Nat
  | [] => none
  | x :: rest =>
      match rfindIdx c rest with
      | some i => some (i + 1)
      | none => if x = c then some 0 else none

/-- The extension part of `os.path.splitext` (posixpath): the suffix from the
last dot, provided that dot lies in the basename and the basename does not
consist solely of leading dots before it. -/
def splitext_ext (p : String) : String :=
  let cs := p.data
  match rfindIdx '.' cs with
  | none => ""
  | some di =>
      let si : Nat := match rfindIdx '/' cs with | some i => i + 1 | none => 0
      if si ≤ di && ((cs.drop si).take (di - si)).any (fun c => c ≠ '.') then
        String.mk (cs.drop di)
      else ""

/-- `os.path.basename`: everything after the last path separator. -/
def basename (p : String) : String :=
  match rfindIdx '/' p.data with
  | none => p
  | some i => String.mk (p.data.drop (i + 1))

/-- A stored project document (schemas.py `Project` plus the mutation
timestamp `updated_at`, absent on creation). -/
structure Project where
  title : Option String
  source_type : String
  source_url : Option String
  file_path : Option String
  tone : String
  extracted : Facts
  outputs : List (String × List (String × String))
  updated_at : Option Nat
deriving DecidableEq

/-- schemas.py `RegenerateRequest`. -/
structure RegenerateRequest where
  tone : String
  languages : List String
deriving DecidableEq

/-- The record store: documents keyed by their id. -/
abbrev Store := List (String × Project)

/-- `db["project"].find_one({"_id": id})`. -/
def find_one : Store → String → Option Project
  | [], _ => none
  | (i, p) :: rest, pid => if i = pid then some p else find_one rest pid

/-- `db["project"].update_one({"_id": id}, {"$set": ...})`: rewrite the first
matching document. -/
def update_one : Store → String → (Project → Project) → Store
  | [], _, _ => []
  | (i, p) :: rest, pid, f =>
      if i = pid then (i, f p) :: rest else (i, p) :: update_one rest pid f

/-- Accepted upload extensions (src/main.py line 219). -/
def ALLOWED_EXTS : List String := [".pdf", ".png", ".jpg", ".jpeg"]

/-- `POST /api/process/upload` (src/main.py lines 212-241): reject unsupported
extensions with 400 before any write, otherwise extract from the file name,
generate for both languages and insert a new document. `newId` stands for the
store-assigned id and the random upload file name; the saved file bytes are
outside the store and not modelled. -/
def process_upload (filename tone : String) (newId : String) (store : Store) :
    Store × Except Nat String :=
  let ext := lowerStr (splitext_ext filename)
  if ext ∈ ALLOWED_EXTS then
    let extracted := simple_extract filename
    let outputs := build_outputs extracted tone LANGS
    let project : Project :=
      { title := some (if extracted.project = "" then basename filename
                       else extracted.project)
        source_type := "upload"
        source_url := none
        file_path := some ("uploads/" ++ newId ++ ext)
        tone := tone
        extracted := extracted
        outputs := outputs
        updated_at := none }
    (store ++ [(newId, project)], Except.ok newId)
  else (store, Except.error 400)

/-- `POST /api/projects/{id}/update_outputs` (src/main.py lines 268-274):
overwrite `outputs` verbatim and stamp `updated_at`; 404 when no document
matches. `now` stands for `datetime.utcnow()`. -/
def update_outputs (pid : String) (payload : List (String × List (String × String)))
    (now : Nat) (store : Store) : Store × Except Nat String :=
  match find_one store pid with
  | none => (store, Except.error 404)
  | some _ =>
      (update_one store pid
        (fun d => { d with outputs := payload, updated_at := some now }),
       Except.ok "ok")

/-- `POST /api/projects/{id}/regenerate` (src/main.py lines 277-287): 404 when
the document is absent, otherwise rebuild outputs from the stored facts with
the requested tone and languages. -/
def regenerate (pid : String) (payload : RegenerateRequest) (now : Nat)
    (store : Store) : Store × Except Nat String :=
  match find_one store pid with
  | none => (store, Except.error 404)
  | some doc =>
      let outputs := build_outputs doc.extracted payload.tone payload.languages
      (update_one store pid
        (fun d => { d with tone := payload.tone, outputs := outputs,
                           updated_at := some now }),
       Except.ok "ok")

/-- An export endpoint response: the raw document for json, or a streamed
body with a MIME type and an attachment file name. -/
inductive ExportResponse where
  | json (doc : Project)
  | file (body : String) (mime : String) (filename : String)
deriving DecidableEq

/-- `combined_text()` inside `export` (src/main.py lines 303-310): title line,
then per language a header line and per section a heading-plus-value line,
joined with newlines. A missing title renders as Python prints `None`. -/
def combined_text (doc : Project) : String :=
  let header := "Title: " ++ (match doc.title with | some t => t | none => "None")
  let lines := header :: doc.outputs.flatMap (fun lv =>
      ("\n=== " ++ upperStr lv.1 ++ " ===") ::
        lv.2.map (fun sv => "\n## " ++ sv.1 ++ "\n" ++ sv.2))
  String.intercalate "\n" lines

/-- `POST /api/projects/{id}/export` (src/main.py lines 290-324). -/
def export_doc (pid : String) (fmt : String) (store : Store) :
    Store × Except Nat ExportResponse :=
  match find_one store pid with
  | none => (store, Except.error 404)
  | some doc =>
      let f := lowerStr fmt
      if f = "json" then (store, Except.ok (ExportResponse.json doc))
      else
        let text_data := combined_text doc
        if f = "txt" then
          (store, Except.ok (ExportResponse.file text_data "text/plain" "export.txt"))
        else if f = "pdf" then
          (store, Except.ok (ExportResponse.file text_data "application/pdf" "export.pdf"))
        else if f = "docx" then
          (store, Except.ok (ExportResponse.file text_data
            "application/vnd.openxmlformats-officedocument.wordprocessingml.document"
            "export.docx"))
        else (store, Except.error 400)

theorem apply_tone_eq (tone lang text : String) :
    apply_tone tone lang text = tonePrefix tone lang ++ text := by
  unfold apply_tone tonePrefix
  split_ifs <;> rfl

theorem tonePrefix_length_pos (tone lang : String) :
    0 < (tonePrefix tone lang).length := by
  unfold tonePrefix tsel
  split_ifs <;> decide

theorem apply_tone_ne_empty (tone lang text : String) :
    apply_tone tone lang text ≠ "" := by
  rw [apply_tone_eq]
  intro h
  have h2 := congrArg String.length h
  rw [String.length_append] at h2
  have h3 : ("" : String).length = 0 := rfl
  rw [h3] at h2
  have h4 := tonePrefix_length_pos tone lang
  omega

theorem generate_content_keys (f : Facts) (tone lang : String) :
    (generate_content f tone lang).map Prod.fst = SECTIONS := rfl

/-- Occurrence of `needle` as a contiguous sublist of `hay` at index `i`. -/
abbrev occursAt (needle hay : List Char) (i : Nat) : Prop :=
  needle.isPrefixOf (hay.drop i) = true

theorem isPrefixOf_nil_iff {needle : List Char} :
    needle.isPrefixOf ([] : List Char) = true ↔ needle = [] := by
  cases needle <;> simp [List.isPrefixOf]

theorem findSub_some {needle hay : List Char} {i : Nat}
    (h : findSub needle hay = some i) :
    occursAt needle hay i ∧ ∀ j, j < i → ¬ occursAt needle hay j := by
  induction hay generalizing i with
  | nil =>
      unfold findSub at h
      split at h
      · rename_i hn
        cases h
        subst hn
        exact ⟨rfl, fun j hj => absurd hj (Nat.not_lt_zero j)⟩
      · cases h
  | cons c rest ih =>
      unfold findSub at h
      split at h
      · rename_i hpre
        cases h
        exact ⟨hpre, fun j hj => absurd hj (Nat.not_lt_zero j)⟩
      · rename_i hpre
        cases heq : findSub needle rest with
        | none => rw [heq] at h; cases h
        | some k =>
            rw [heq] at h
            cases h
            obtain ⟨hk, hkmin⟩ := ih heq
            refine ⟨hk, ?_⟩
            intro j hj
            cases j with
            | zero => simpa [occursAt] using hpre
            | succ j' =>
                have : j' < k := Nat.lt_of_succ_lt_succ hj
                simpa [occursAt] using hkmin j' this

theorem findSub_none {needle hay : List Char}
    (h : findSub needle hay = none) : ∀ i, ¬ occursAt needle hay i := by
  induction hay with
  | nil =>
      intro i hi
      unfold findSub at h
      split at h
      · cases h
      · rename_i hn
        have hi2 : needle.isPrefixOf ([] : List Char) = true := by
          simpa [occursAt, List.drop_nil] using hi
        exact hn (isPrefixOf_nil_iff.mp hi2)
  | cons c rest ih =>
      intro i hi
      unfold findSub at h
      split at h
      · cases h
      · rename_i hpre
        cases heq : findSub needle rest with
        | some k => rw [heq] at h; cases h
        | none =>
            cases i with
            | zero => exact hpre hi
            | succ i' => exact ih heq i' hi

theorem findSub_eq_some_of_least {needle hay : List Char} {i : Nat}
    (hi : occursAt needle hay i) (hmin : ∀ j, j < i → ¬ occursAt needle hay j) :
    findSub needle hay = some i := by
  cases heq : findSub needle hay with
  | none => exact absurd hi (findSub_none heq i)
  | some k =>
      obtain ⟨hk, hkmin⟩ := findSub_some heq
      rcases Nat.lt_trichotomy k i with h | h | h
      · exact absurd hk (hmin k h)
      · rw [h]
      · exact absurd hi (hkmin i h)

theorem dinsert_mem {α : Type} {k : String} {v : α} {d : List (String × α)}
    {p : String × α} (hp : p ∈ dinsert k v d) : p = (k, v) ∨ p ∈ d := by
  induction d with
  | nil => simpa [dinsert] using hp
  | cons hd tl ih =>
      obtain ⟨k', v'⟩ := hd
      by_cases h : k' = k
      · simp only [dinsert, if_pos h, List.mem_cons] at hp
        rcases hp with h1 | h1
        · exact Or.inl h1
        · exact Or.inr (List.mem_cons_of_mem _ h1)
      · simp only [dinsert, if_neg h, List.mem_cons] at hp
        rcases hp with h1 | h1
        · exact Or.inr (by simp [h1])
        · rcases ih h1 with h2 | h2
          · exact Or.inl h2
          · exact Or.inr (List.mem_cons_of_mem _ h2)

theorem build_outputs_fold_mem (f : Facts) (tone : String) (langs : List String)
    (acc : List (String × List (String × String)))
    (p : String × List (String × String))
    (hp : p ∈ langs.foldl
        (fun a lang => dinsert lang (generate_content f tone lang) a) acc) :
    p ∈ acc ∨ (p.2 = generate_content f tone p.1 ∧ p.1 ∈ langs) := by
  induction langs generalizing acc with
  | nil => exact Or.inl (by simpa using hp)
  | cons hd tl ih =>
      simp only [List.foldl_cons] at hp
      rcases ih _ hp with h | h
      · rcases dinsert_mem h with h2 | h2
        · subst h2
          exact Or.inr ⟨rfl, List.mem_cons_self _ _⟩
        · exact Or.inl h2
      · exact Or.inr ⟨h.1, List.mem_cons_of_mem _ h.2⟩

theorem mem_build_outputs {f : Facts} {tone : String} {langs : List String}
    {p : String × List (String × String)} (hp : p ∈ build_outputs f tone langs) :
    p.2 = generate_content f tone p.1 ∧ p.1 ∈ langs := by
  rcases build_outputs_fold_mem f tone langs [] p hp with h | h
  · simp at h
  · exact h

theorem mem_generate_content_non_qa {f : Facts} {tone lang sec v : String}
    (hmem : (sec, v) ∈ generate_content f tone lang) (hne : sec ≠ "qa") :
    ∃ text, v = apply_tone tone lang text := by
  simp only [generate_content, List.mem_cons, List.not_mem_nil, or_false,
    Prod.mk.injEq] at hmem
  rcases hmem with ⟨h1, h2⟩ | ⟨h1, h2⟩ | ⟨h1, h2⟩ | ⟨h1, h2⟩ | ⟨h1, h2⟩ |
    ⟨h1, h2⟩ | ⟨h1, h2⟩ <;>
    first
      | exact absurd h1 hne
      | exact ⟨_, h2⟩

/-- Fact record used by the concrete witnesses below: the spec's worked
example for the Marina Heights development. -/
def marinaFacts : Facts :=
  { location := "Downtown", prices := "", sizes := "", payment_plan := "",
    amenities := [], usp := ["Prime location", "Strong ROI potential"],
    handover := "", developer := "", project := "Marina Heights" }

/-- A stored document used by concrete witnesses and counterexamples. -/
def demoProject : Project :=
  { title := some "Marina Heights", source_type := "upload",
    source_url := none, file_path := some "uploads/abc.pdf",
    tone := "premium", extracted := marinaFacts,
    outputs := [], updated_at := none }

/-- A one-document store used by concrete witnesses and counterexamples. -/
def demoStore : Store := [("p1", demoProject)]

/-- C1: for every facts record, tone and language, generate_content returns
an association list whose key sequence is exactly the seven fixed sections,
and every section value except qa is a non-empty string beginning with the
tone-specific marker phrase for that tone and language. -/
theorem generate_content_seven_sections_tone_marked
    (f : Facts) (tone lang : String) :
    (generate_content f tone lang).map Prod.fst = SECTIONS ∧
    ∀ sec v, (sec, v) ∈ generate_content f tone lang → sec ≠ "qa" →
      v ≠ "" ∧ ∃ r, v = tonePrefix tone lang ++ r := by
  refine ⟨generate_content_keys f tone lang, ?_⟩
  intro sec v hmem hne
  obtain ⟨text, rfl⟩ := mem_generate_content_non_qa hmem hne
  exact ⟨apply_tone_ne_empty tone lang text, text, apply_tone_eq tone lang text⟩

/-- Witness for C1 at the Marina Heights facts, tone simple, language en:
the facebook_post section is present, non-empty and tone-marked. -/
theorem generate_content_seven_sections_tone_marked_witness :
    (("facebook_post",
        "Plain: Discover Marina Heights. Key points: Prime location, Strong ROI potential. Prices: . Sizes: . Payment: . Location: Downtown.")
      ∈ generate_content marinaFacts "simple" "en" ∧
     ("facebook_post" : String) ≠ "qa") ∧
    ("Plain: Discover Marina Heights. Key points: Prime location, Strong ROI potential. Prices: . Sizes: . Payment: . Location: Downtown." ≠ "" ∧
     ∃ r, "Plain: Discover Marina Heights. Key points: Prime location, Strong ROI potential. Prices: . Sizes: . Payment: . Location: Downtown." =
       tonePrefix "simple" "en" ++ r) :=
  ⟨⟨by decide, by decide⟩,
   (generate_content_seven_sections_tone_marked marinaFacts "simple" "en").2
     "facebook_post" _ (by decide) (by decide)⟩

/-- C2 counterexample: regenerating the stored project with the language list
containing only fr leaves the stored outputs keyed by fr, which is not a
supported language code, so the invariant as claimed fails. -/
theorem outputs_keys_escape_supported_langs :
    (find_one
        (regenerate "p1" (RegenerateRequest.mk "premium" ["fr"]) 0 demoStore).1
        "p1").map (fun p => p.outputs.map Prod.fst) = some ["fr"] ∧
    ("fr" : String) ∉ LANGS := by
  exact ⟨rfl, by decide⟩

/-- C2 amended: after any generation pass every entry of the produced outputs
mapping is keyed by one of the requested languages (which the API does not
restrict to the supported set), and its inner mapping has exactly the seven
fixed section keys. -/
theorem build_outputs_entries_shape (f : Facts) (tone : String)
    (langs : List String) :
    ∀ lang secs, (lang, secs) ∈ build_outputs f tone langs →
      lang ∈ langs ∧ secs.map Prod.fst = SECTIONS := by
  intro lang secs hm
  have h := mem_build_outputs hm
  refine ⟨h.2, ?_⟩
  have h1 : secs = generate_content f tone lang := h.1
  rw [h1]
  exact generate_content_keys f tone lang

/-- Witness for the amended C2 at a concrete generation pass over a single
requested language. -/
theorem build_outputs_entries_shape_witness :
    (("en", generate_content marinaFacts "simple" "en")
      ∈ build_outputs marinaFacts "simple" ["en"]) ∧
    (("en" : String) ∈ ["en"] ∧
     (generate_content marinaFacts "simple" "en").map Prod.fst = SECTIONS) :=
  ⟨List.mem_singleton.mpr rfl,
   build_outputs_entries_shape marinaFacts "simple" ["en"] "en" _
     (List.mem_singleton.mpr rfl)⟩

/-- C3: the qa section is the fixed language-specific string made of the ten
questions, each rendered as a Q: line followed by an A: placeholder line (no
question contains a line break), and it does not depend on the tone. -/
theorem qa_ten_questions_tone_invariant (f : Facts) (tone tone' lang : String) :
    List.lookup "qa" (generate_content f tone lang) =
      some (String.intercalate "\n"
        ((qa_items lang).map (fun q => "Q: " ++ q ++ "\nA: "))) ∧
    (qa_items lang).length = 10 ∧
    (∀ q ∈ qa_items lang, '\n' ∉ q.data) ∧
    List.lookup "qa" (generate_content f tone lang) =
      List.lookup "qa" (generate_content f tone' lang) := by
  refine ⟨rfl, rfl, ?_, rfl⟩
  intro q hq
  have hcase : qa_items lang = qa_items "en" ∨ qa_items lang = qa_items "pl" := by
    by_cases hl : lang = "pl"
    · right; rw [hl]
    · left; unfold qa_items tsel; simp [hl]
  have hen : ∀ q ∈ qa_items "en", '\n' ∉ q.data := by decide
  have hpl : ∀ q ∈ qa_items "pl", '\n' ∉ q.data := by decide
  rcases hcase with h | h
  · exact hen q (h ▸ hq)
  · exact hpl q (h ▸ hq)

/-- Witness for C3: at concrete facts and two concrete tones the qa section
coincides. -/
theorem qa_ten_questions_tone_invariant_witness :
    List.lookup "qa" (generate_content marinaFacts "aggressive" "en") =
      List.lookup "qa" (generate_content marinaFacts "simple" "en") :=
  (qa_ten_questions_tone_invariant marinaFacts "aggressive" "simple" "en").2.2.2

/-- C4: any tone outside the three recognized ones gets the Premium marker in
every non-qa section, for every language (Polish included, where the marker
is also the string Premium followed by a colon and a space). -/
theorem unknown_tone_premium_marker (f : Facts) (tone lang : String)
    (h1 : tone ≠ "aggressive") (h2 : tone ≠ "simple")
    (h3 : tone ≠ "storytelling") :
    ∀ sec v, (sec, v) ∈ generate_content f tone lang → sec ≠ "qa" →
      ∃ r, v = "Premium: " ++ r := by
  have hp : tonePrefix tone lang = "Premium: " := by
    unfold tonePrefix tsel
    rw [if_neg h1, if_neg h2, if_neg h3]
    split_ifs <;> rfl
  intro sec v hmem hne
  obtain ⟨text, rfl⟩ := mem_generate_content_non_qa hmem hne
  exact ⟨text, by rw [apply_tone_eq, hp]⟩

/-- Witness for C4 at the unrecognized tone weird and the Polish output. -/
theorem unknown_tone_premium_marker_witness :
    (("weird" : String) ≠ "aggressive" ∧ ("weird" : String) ≠ "simple" ∧
     ("weird" : String) ≠ "storytelling" ∧
     ("whatsapp_short", "Premium: Krótko: Marina Heights w Downtown.  ")
       ∈ generate_content marinaFacts "weird" "pl" ∧
     ("whatsapp_short" : String) ≠ "qa") ∧
    ∃ r, "Premium: Krótko: Marina Heights w Downtown.  " = "Premium: " ++ r :=
  ⟨⟨by decide, by decide, by decide, by decide, by decide⟩,
   unknown_tone_premium_marker marinaFacts "weird" "pl"
     (by decide) (by decide) (by decide) "whatsapp_short" _
     (by decide) (by decide)⟩

/-- C5: on the Marina Heights facts with tone simple and language en, the
instagram_post section begins with the expected plain-tone sentence. -/
theorem marina_instagram_begins_plain :
    ∃ r, List.lookup "instagram_post"
        (generate_content marinaFacts "simple" "en") =
      some ("Plain: Marina Heights in Downtown." ++ r) :=
  ⟨"    Amenities: . Handover: . By .", by decide⟩

/-- C6: for each of the four labeled fields, simple_extract captures the text
of the original input starting at the label's first occurrence in the
lower-cased input, limited to 160 characters and cut at the first line break,
and leaves the field empty when the label never occurs. -/
theorem simple_extract_labeled_fields (text key : String)
    (hkey : key ∈ ["location", "handover", "developer", "project"]) :
    ((∀ i, ¬ occursAt key.data (text.data.map Char.toLower) i) →
        fieldOf (simple_extract text) key = "") ∧
    (∀ i, occursAt key.data (text.data.map Char.toLower) i →
        (∀ j, j < i → ¬ occursAt key.data (text.data.map Char.toLower) j) →
        fieldOf (simple_extract text) key =
          String.mk (((text.data.drop i).take 160).takeWhile
            (fun c => c ≠ '\n'))) := by
  have hf : fieldOf (simple_extract text) key = extract_field text key := by
    simp only [List.mem_cons, List.not_mem_nil, or_false] at hkey
    rcases hkey with rfl | rfl | rfl | rfl <;> rfl
  constructor
  · intro h
    rw [hf]
    unfold extract_field
    cases heq : findSub key.data (text.data.map Char.toLower) with
    | none => rfl
    | some k => exact absurd (findSub_some heq).1 (h k)
  · intro i hi hmin
    rw [hf]
    unfold extract_field
    rw [findSub_eq_some_of_least hi hmin]

/-- Witness for C6: the location label occurs first at index 4 of the
lower-cased sample text and the captured field is its first line. -/
theorem simple_extract_labeled_fields_witness :
    ((("location" : String) ∈ ["location", "handover", "developer", "project"]) ∧
     occursAt "location".data
       ("The Location: Marina Bay\nmore".data.map Char.toLower) 4 ∧
     (∀ j, j < 4 → ¬ occursAt "location".data
       ("The Location: Marina Bay\nmore".data.map Char.toLower) j)) ∧
    fieldOf (simple_extract "The Location: Marina Bay\nmore") "location" =
      String.mk ((("The Location: Marina Bay\nmore".data.drop 4).take 160).takeWhile
        (fun c => c ≠ '\n')) :=
  ⟨⟨by decide, by decide, by decide⟩,
   (simple_extract_labeled_fields "The Location: Marina Bay\nmore" "location"
     (by decide)).2 4 (by decide) (by decide)⟩

/-- C7: an upload whose lower-cased extension is not an accepted one is
rejected with HTTP 400 and the store is left exactly as it was. -/
theorem upload_unsupported_extension_400 (filename tone newId : String)
    (store : Store) (h : lowerStr (splitext_ext filename) ∉ ALLOWED_EXTS) :
    process_upload filename tone newId store = (store, Except.error 400) := by
  unfold process_upload
  rw [if_neg h]

/-- Witness for C7 at a concrete txt upload against the empty store. -/
theorem upload_unsupported_extension_400_witness :
    (lowerStr (splitext_ext "report.TXT") ∉ ALLOWED_EXTS) ∧
    process_upload "report.TXT" "premium" "id1" [] = ([], Except.error 400) :=
  ⟨by decide,
   upload_unsupported_extension_400 "report.TXT" "premium" "id1" [] (by decide)⟩

/-- C8: regenerating a project id with no stored document returns HTTP 404
and leaves the store exactly as it was. -/
theorem regenerate_unknown_id_404 (pid : String) (payload : RegenerateRequest)
    (now : Nat) (store : Store) (h : find_one store pid = none) :
    regenerate pid payload now store = (store, Except.error 404) := by
  unfold regenerate
  rw [h]

/-- Witness for C8 at a concrete id absent from the demo store. -/
theorem regenerate_unknown_id_404_witness :
    find_one demoStore "missing" = none ∧
    regenerate "missing" (RegenerateRequest.mk "simple" ["en"]) 7 demoStore =
      (demoStore, Except.error 404) :=
  ⟨by decide,
   regenerate_unknown_id_404 "missing" (RegenerateRequest.mk "simple" ["en"]) 7
     demoStore (by decide)⟩

/-- C9: for a stored document, export under txt, pdf and docx returns the
same body, the combined text, the three responses differing only in MIME
type and suggested attachment file name. -/
theorem export_txt_pdf_docx_same_body (pid : String) (store : Store)
    (doc : Project) (h : find_one store pid = some doc) :
    export_doc pid "txt" store =
      (store, Except.ok (ExportResponse.file (combined_text doc)
        "text/plain" "export.txt")) ∧
    export_doc pid "pdf" store =
      (store, Except.ok (ExportResponse.file (combined_text doc)
        "application/pdf" "export.pdf")) ∧
    export_doc pid "docx" store =
      (store, Except.ok (ExportResponse.file (combined_text doc)
        "application/vnd.openxmlformats-officedocument.wordprocessingml.document"
        "export.docx")) := by
  refine ⟨?_, ?_, ?_⟩ <;> (unfold export_doc; rw [h]; rfl)

/-- Witness for C9 at the demo store's only document. -/
theorem export_txt_pdf_docx_same_body_witness :
    find_one demoStore "p1" = some demoProject ∧
    export_doc "p1" "txt" demoStore =
      (demoStore, Except.ok (ExportResponse.file (combined_text demoProject)
        "text/plain" "export.txt")) :=
  ⟨rfl, (export_txt_pdf_docx_same_body "p1" demoStore demoProject rfl).1⟩

/-- C10: any language other than pl produces exactly the English output, and
so every non-pl entry of build_outputs carries the English content. -/
theorem non_pl_language_yields_english (f : Facts) (tone lang : String)
    (h : lang ≠ "pl") :
    generate_content f tone lang = generate_content f tone "en" ∧
    ∀ langs secs, (lang, secs) ∈ build_outputs f tone langs →
      secs = generate_content f tone "en" := by
  have ht : ∀ a b, tsel lang a b = tsel "en" a b := by
    intro a b
    unfold tsel
    rw [if_neg h, if_neg (by decide : ("en" : String) = "pl" → False)]
  have hg : generate_content f tone lang = generate_content f tone "en" := by
    unfold generate_content apply_tone qa_items
    simp only [ht]
  refine ⟨hg, ?_⟩
  intro langs secs hm
  have h2 : secs = generate_content f tone lang := (mem_build_outputs hm).1
  rw [h2, hg]

/-- Witness for C10 at the unsupported language code fr. -/
theorem non_pl_language_yields_english_witness :
    (("fr" : String) ≠ "pl") ∧
    generate_content marinaFacts "premium" "fr" =
      generate_content marinaFacts "premium" "en" :=
  ⟨by decide,
   (non_pl_language_yields_english marinaFacts "premium" "fr" (by decide)).1⟩
